import Mathlib

/-!
Shallow embedding of `relayer/relayMsgs.go` (message batching and two-chain
send orchestration of the relayer) together with proofs of the specified
properties.

Modelling conventions:
* An opaque `provider.RelayerMessage` is modelled by an identifier plus the
  result of its `MsgBytes()` serialization (`none` models a Go non-nil
  error, which `Send` turns into a panic).
* A `nil` entry of a Go message slice is modelled by `Option`: `none` is the
  nil placeholder, `some m` a present message.
* A Go `error` value accumulated by `multierr` is modelled as a `List String`
  of the constituent error messages, `[]` standing for `nil`;
  `multierr.AppendInto(&acc, err)` with non-nil `err` becomes `acc ++ [e]`.
* A sender endpoint's `SendMessages(ctx, msgs)` is modelled by a function of
  the per-side call index (standing for the state of the external world at
  that call) and of the submitted batch, returning the triple
  (response-or-nil, success, error-or-nil).
* `Send` is modelled as a total function that also records, in order, every
  `SendMessages` invocation it performs (side + batch) — the submission
  trace — and whether it panicked; on panic no ordinary result is returned
  (`result = none`) and the trace stops at the panic point.
-/

/-- An opaque relayer message: an identity plus its `MsgBytes()` behaviour.
`MsgBytes = none` models `MsgBytes()` returning a non-nil error (which makes
`Send` panic); `some bz` models a successful serialization to bytes. -/
structure RelayerMessage where
  id : Nat
  MsgBytes : Option (List Nat)
  deriving Repr, DecidableEq

/-- `RelayMsgs` from the source: the two message sequences and the two
batching limits (`0` = unlimited). Slice entries are `Option` to model nil
placeholders. -/
structure RelayMsgs where
  Src : List (Option RelayerMessage)
  Dst : List (Option RelayerMessage)
  MaxTxSize : Nat
  MaxMsgLength : Nat
  deriving Repr, DecidableEq

/-- `NewRelayMsgs` from the source: empty sequences, zero limits. -/
def NewRelayMsgs : RelayMsgs := ⟨[], [], 0, 0⟩

/-- `Ready` from the source. The Go receiver is a pointer, so the argument is
an `Option RelayMsgs`: `none` models a nil receiver. -/
def Ready (r : Option RelayMsgs) : Bool :=
  match r with
  | none => false
  | some r => if r.Src.length == 0 && r.Dst.length == 0 then false else true

/-- `IsMaxTx` from the source:
`(MaxMsgLength != 0 && msgLen > MaxMsgLength) || (MaxTxSize != 0 && txSize > MaxTxSize)`. -/
def RelayMsgs.IsMaxTx (r : RelayMsgs) (msgLen txSize : Nat) : Bool :=
  (r.MaxMsgLength != 0 && decide (msgLen > r.MaxMsgLength)) ||
  (r.MaxTxSize != 0 && decide (txSize > r.MaxTxSize))

/-- The two destinations of a `Send` call. -/
inductive Side where
  | src
  | dst
  deriving Repr, DecidableEq

/-- The triple returned by a sender endpoint's `SendMessages`:
(response-or-nil, success, error-or-nil). -/
structure SenderOutcome where
  resp : Option Nat
  success : Bool
  error : Option String
  deriving Repr, DecidableEq

/-- `RelayMsgSender` from the source: a chain id plus the `SendMessages`
operation. The extra `Nat` argument is the per-side call index, modelling the
state of the external world at each successive invocation. -/
structure RelayMsgSender where
  ChainID : String
  SendMessages : Nat → List RelayerMessage → SenderOutcome

/-- `SendMsgsResult` from the source. Counters are the Go `int` counts (only
ever incremented from zero, hence `Nat`); the accumulated `multierr` errors
are modelled as lists of constituent messages, `[]` = nil. -/
structure SendMsgsResult where
  SuccessfulSrcBatches : Nat
  SuccessfulDstBatches : Nat
  SrcSendError : List String
  DstSendError : List String
  deriving Repr, DecidableEq

/-- `PartiallySent` from the source:
`(SuccessfulSrcBatches > 0 || SuccessfulDstBatches > 0) && (SrcSendError != nil || DstSendError != nil)`. -/
def SendMsgsResult.PartiallySent (r : SendMsgsResult) : Bool :=
  (decide (r.SuccessfulSrcBatches > 0) || decide (r.SuccessfulDstBatches > 0)) &&
  (!r.SrcSendError.isEmpty || !r.DstSendError.isEmpty)

/-- The per-submission bookkeeping of `Send`:
`if err != nil { multierr.AppendInto(&result.XSendError, err) }` followed by
`if success { result.SuccessfulXBatches++ }`, on the given side. -/
def recordOutcome (side : Side) (o : SenderOutcome) (res : SendMsgsResult) : SendMsgsResult :=
  match side with
  | .src =>
    let res :=
      match o.error with
      | some e => { res with SrcSendError := res.SrcSendError ++ [e] }
      | none => res
    if o.success then { res with SuccessfulSrcBatches := res.SuccessfulSrcBatches + 1 } else res
  | .dst =>
    let res :=
      match o.error with
      | some e => { res with DstSendError := res.DstSendError ++ [e] }
      | none => res
    if o.success then { res with SuccessfulDstBatches := res.SuccessfulDstBatches + 1 } else res

/-- The mutable state of one side's loop inside `Send`: the Go locals
`msgLen`, `txSize`, `msgs`, plus the per-side call index, the chronological
trace of submissions so far (both sides), and the result accumulator. -/
structure LoopState where
  msgLen : Nat
  txSize : Nat
  msgs : List RelayerMessage
  idx : Nat
  calls : List (Side × List RelayerMessage)
  result : SendMsgsResult
  deriving Repr

/-- One side's `for _, msg := range ...` loop from `Send`, verbatim:
skip nil entries; `MsgBytes` failure panics (second component `true`);
on `IsMaxTx` after tentatively counting the message, submit the pending
batch, record its outcome, and reset the pending batch; otherwise append. -/
def sendSideLoop (r : RelayMsgs) (side : Side) (sender : RelayMsgSender) :
    List (Option RelayerMessage) → LoopState → LoopState × Bool
  | [], ls => (ls, false)
  | none :: rest, ls => sendSideLoop r side sender rest ls
  | some m :: rest, ls =>
    match m.MsgBytes with
    | none => (ls, true)
    | some bz =>
      let msgLen := ls.msgLen + 1
      let txSize := ls.txSize + bz.length
      if r.IsMaxTx msgLen txSize then
        let o := sender.SendMessages ls.idx ls.msgs
        sendSideLoop r side sender rest
          { msgLen := 1, txSize := bz.length, msgs := [m], idx := ls.idx + 1,
            calls := ls.calls ++ [(side, ls.msgs)],
            result := recordOutcome side o ls.result }
      else
        sendSideLoop r side sender rest
          { ls with msgLen := msgLen, txSize := txSize, msgs := ls.msgs ++ [m] }

/-- One full side of `Send`: the loop followed by the guarded leftover
submission `if len(msgs) > 0 { ... }`. On panic the leftover is not
submitted and the partial trace/result are returned with the panic flag. -/
def sendSide (r : RelayMsgs) (side : Side) (sender : RelayMsgSender)
    (seq : List (Option RelayerMessage))
    (calls0 : List (Side × List RelayerMessage)) (res0 : SendMsgsResult) :
    (List (Side × List RelayerMessage) × SendMsgsResult) × Bool :=
  match sendSideLoop r side sender seq ⟨0, 0, [], 0, calls0, res0⟩ with
  | (ls, true) => ((ls.calls, ls.result), true)
  | (ls, false) =>
    if ls.msgs.length > 0 then
      let o := sender.SendMessages ls.idx ls.msgs
      ((ls.calls ++ [(side, ls.msgs)], recordOutcome side o ls.result), false)
    else
      ((ls.calls, ls.result), false)

/-- What a `Send` invocation did: whether it panicked, the chronological
trace of `SendMessages` invocations (side + submitted batch), and the
returned `SendMsgsResult` (`none` when the call panicked). -/
structure SendOutcome where
  panicked : Bool
  calls : List (Side × List RelayerMessage)
  result : Option SendMsgsResult
  deriving Repr

/-- `Send` from the source: the src-side loop and leftover submission, then
(state reset) the dst-side loop and leftover submission. A `MsgBytes` panic
aborts the call: the trace stops there and no result is returned. -/
def RelayMsgs.Send (r : RelayMsgs) (src dst : RelayMsgSender) : SendOutcome :=
  match sendSide r .src src r.Src [] ⟨0, 0, [], []⟩ with
  | ((calls1, _), true) => ⟨true, calls1, none⟩
  | ((calls1, res1), false) =>
    match sendSide r .dst dst r.Dst calls1 res1 with
    | ((calls2, _), true) => ⟨true, calls2, none⟩
    | ((calls2, res2), false) => ⟨false, calls2, some res2⟩

/-- `DecodeMsgs` from the source, abstracted over the external Amino codec:
`dec blob = none` models `UnmarshalJSON` returning a non-nil error (the blob
is logged and omitted), `some m` a successful parse that is appended. -/
def DecodeMsgs (dec : String → Option RelayerMessage) (msgs : List String) :
    List RelayerMessage :=
  decodeLoop msgs []
where
  decodeLoop : List String → List RelayerMessage → List RelayerMessage
    | [], out => out
    | msg :: rest, out =>
      match dec msg with
      | none => decodeLoop rest out
      | some sm => decodeLoop rest (out ++ [sm])

/-- `EncodeMsgs` from the source, abstracted over the external Amino codec:
failures are logged and omitted, successes appended as text blobs. -/
def EncodeMsgs (enc : RelayerMessage → Option String) (msgs : List RelayerMessage) :
    List String :=
  encodeLoop msgs []
where
  encodeLoop : List RelayerMessage → List String → List String
    | [], out => out
    | msg :: rest, out =>
      match enc msg with
      | none => encodeLoop rest out
      | some bz => encodeLoop rest (out ++ [bz])

/-! ## Pure mirror of the batching loop

`batchLoop` follows the recursion of `sendSideLoop` exactly but drops the
sender: it returns the batches flushed inside the loop (in submission
order), the final `msgLen`/`txSize`/pending batch, and whether the loop
panicked on a `MsgBytes` failure. -/

/-- Outcome of one side's batching loop, sender-independent. -/
structure BatchOut where
  flushed : List (List RelayerMessage)
  msgLen : Nat
  txSize : Nat
  pending : List RelayerMessage
  panicked : Bool
  deriving Repr, DecidableEq

/-- Sender-free mirror of `sendSideLoop`. -/
def batchLoop (r : RelayMsgs) :
    List (Option RelayerMessage) → Nat → Nat → List RelayerMessage → BatchOut
  | [], msgLen, txSize, cur => ⟨[], msgLen, txSize, cur, false⟩
  | none :: rest, msgLen, txSize, cur => batchLoop r rest msgLen txSize cur
  | some m :: rest, msgLen, txSize, cur =>
    match m.MsgBytes with
    | none => ⟨[], msgLen, txSize, cur, true⟩
    | some bz =>
      if r.IsMaxTx (msgLen + 1) (txSize + bz.length) then
        let out := batchLoop r rest 1 bz.length [m]
        ⟨cur :: out.flushed, out.msgLen, out.txSize, out.pending, out.panicked⟩
      else
        batchLoop r rest (msgLen + 1) (txSize + bz.length) (cur ++ [m])

/-- Tag a list of batches with the side they are submitted on. -/
def tagged (side : Side) (bs : List (List RelayerMessage)) :
    List (Side × List RelayerMessage) :=
  bs.map (fun b => (side, b))

/-- Fold the per-submission bookkeeping of `Send` over a list of batches,
threading the per-side call index. -/
def recordAll (side : Side) (sender : RelayMsgSender) :
    Nat → List (List RelayerMessage) → SendMsgsResult → SendMsgsResult
  | _, [], res => res
  | idx, b :: rest, res =>
    recordAll side sender (idx + 1) rest (recordOutcome side (sender.SendMessages idx b) res)

/-- The outcomes the given sender returns for a list of batches submitted
from the given starting call index, in order. -/
def outcomes (sender : RelayMsgSender) :
    Nat → List (List RelayerMessage) → List SenderOutcome
  | _, [] => []
  | idx, b :: rest => sender.SendMessages idx b :: outcomes sender (idx + 1) rest

/-- Whether processing this sequence panics on a `MsgBytes` failure. -/
def sidePanics (r : RelayMsgs) (seq : List (Option RelayerMessage)) : Bool :=
  (batchLoop r seq 0 0 []).panicked

/-- The full list of batches one side of `Send` submits for this sequence:
the loop's flushes plus, when the loop does not panic and the pending batch
is non-empty, the leftover batch. -/
def sideBatchesPure (r : RelayMsgs) (seq : List (Option RelayerMessage)) :
    List (List RelayerMessage) :=
  let bo := batchLoop r seq 0 0 []
  if bo.panicked then bo.flushed
  else if bo.pending.length > 0 then bo.flushed ++ [bo.pending] else bo.flushed

/-- The batches a `Send` run submitted on the given side, in order,
extracted from the chronological trace. -/
def sideBatches (o : SendOutcome) (s : Side) : List (List RelayerMessage) :=
  o.calls.filterMap (fun c => if c.1 = s then some c.2 else none)

/-! ## Correspondence between `Send` and the pure mirror -/

lemma sendSideLoop_eq (r : RelayMsgs) (side : Side) (sender : RelayMsgSender) :
    ∀ (seq : List (Option RelayerMessage)) (ls : LoopState),
      sendSideLoop r side sender seq ls =
        (⟨(batchLoop r seq ls.msgLen ls.txSize ls.msgs).msgLen,
          (batchLoop r seq ls.msgLen ls.txSize ls.msgs).txSize,
          (batchLoop r seq ls.msgLen ls.txSize ls.msgs).pending,
          ls.idx + (batchLoop r seq ls.msgLen ls.txSize ls.msgs).flushed.length,
          ls.calls ++ tagged side (batchLoop r seq ls.msgLen ls.txSize ls.msgs).flushed,
          recordAll side sender ls.idx (batchLoop r seq ls.msgLen ls.txSize ls.msgs).flushed
            ls.result⟩,
         (batchLoop r seq ls.msgLen ls.txSize ls.msgs).panicked) := by
  intro seq
  induction seq with
  | nil =>
    intro ls
    simp [sendSideLoop, batchLoop, tagged, recordAll]
  | cons hd tl ih =>
    intro ls
    cases hd with
    | none =>
      simpa [sendSideLoop, batchLoop] using ih ls
    | some m =>
      cases hbz : m.MsgBytes with
      | none =>
        simp [sendSideLoop, batchLoop, hbz, tagged, recordAll]
      | some bz =>
        by_cases hmax : r.IsMaxTx (ls.msgLen + 1) (ls.txSize + bz.length) = true
        · simp only [sendSideLoop, batchLoop, hbz, hmax, if_true]
          rw [ih]
          simp [tagged, recordAll]
          omega
        · simp only [sendSideLoop, batchLoop, hbz, hmax, if_false,
            Bool.not_eq_true] at hmax ⊢
          simp only [hmax, Bool.false_eq_true, if_false]
          exact ih _

lemma recordAll_append (side : Side) (sender : RelayMsgSender) :
    ∀ (bs : List (List RelayerMessage)) (idx : Nat) (b : List RelayerMessage)
      (res : SendMsgsResult),
      recordAll side sender idx (bs ++ [b]) res =
        recordOutcome side (sender.SendMessages (idx + bs.length) b)
          (recordAll side sender idx bs res) := by
  intro bs
  induction bs with
  | nil => intro idx b res; simp [recordAll]
  | cons hd tl ih =>
    intro idx b res
    have step : recordAll side sender idx ((hd :: tl) ++ [b]) res
        = recordAll side sender (idx + 1) (tl ++ [b])
            (recordOutcome side (sender.SendMessages idx hd) res) := rfl
    have step2 : recordAll side sender idx (hd :: tl) res
        = recordAll side sender (idx + 1) tl
            (recordOutcome side (sender.SendMessages idx hd) res) := rfl
    rw [step, ih, step2, List.length_cons]
    have harith : idx + 1 + tl.length = idx + (tl.length + 1) := by omega
    rw [harith]

lemma sendSide_eq (r : RelayMsgs) (side : Side) (sender : RelayMsgSender)
    (seq : List (Option RelayerMessage))
    (calls0 : List (Side × List RelayerMessage)) (res0 : SendMsgsResult) :
    sendSide r side sender seq calls0 res0 =
      ((calls0 ++ tagged side (sideBatchesPure r seq),
        recordAll side sender 0 (sideBatchesPure r seq) res0),
       sidePanics r seq) := by
  unfold sendSide
  rw [sendSideLoop_eq]
  simp only [sideBatchesPure, sidePanics]
  cases hp : (batchLoop r seq 0 0 []).panicked with
  | true => simp
  | false =>
    by_cases hlen : (batchLoop r seq 0 0 []).pending.length > 0
    · simp [hlen, recordAll_append, tagged]
    · simp [hlen]

lemma Send_eq (r : RelayMsgs) (src dst : RelayMsgSender) :
    r.Send src dst =
      (if sidePanics r r.Src then
        ⟨true, tagged .src (sideBatchesPure r r.Src), none⟩
      else if sidePanics r r.Dst then
        ⟨true, tagged .src (sideBatchesPure r r.Src) ++ tagged .dst (sideBatchesPure r r.Dst),
         none⟩
      else
        ⟨false, tagged .src (sideBatchesPure r r.Src) ++ tagged .dst (sideBatchesPure r r.Dst),
         some (recordAll .dst dst 0 (sideBatchesPure r r.Dst)
                (recordAll .src src 0 (sideBatchesPure r r.Src) ⟨0, 0, [], []⟩))⟩ :
        SendOutcome) := by
  unfold RelayMsgs.Send
  rw [sendSide_eq]
  cases hs : sidePanics r r.Src with
  | true => simp [hs]
  | false =>
    simp only [hs]
    rw [sendSide_eq]
    cases hd : sidePanics r r.Dst with
    | true => simp [hd]
    | false => simp [hd]

/-! ## Pure lemmas about the batching loop -/

lemma not_isMaxTx_count (r : RelayMsgs) (hL : r.MaxMsgLength ≠ 0) (ml ts : Nat)
    (h : r.IsMaxTx ml ts = false) : ml ≤ r.MaxMsgLength := by
  by_contra hgt
  push_neg at hgt
  have htrue : r.IsMaxTx ml ts = true := by
    simp [RelayMsgs.IsMaxTx, hL, hgt]
  rw [htrue] at h
  exact Bool.true_eq_false.mp h

/-- Concatenating the flushed batches and the pending batch recovers the
initial pending batch followed by the non-nil messages of the sequence, as
long as the loop does not panic. -/
lemma batchLoop_join (r : RelayMsgs) :
    ∀ (seq : List (Option RelayerMessage)) (msgLen txSize : Nat)
      (cur : List RelayerMessage),
      (batchLoop r seq msgLen txSize cur).panicked = false →
      (batchLoop r seq msgLen txSize cur).flushed.flatten ++
          (batchLoop r seq msgLen txSize cur).pending =
        cur ++ seq.filterMap id := by
  intro seq
  induction seq with
  | nil => intro ml ts cur h; simp [batchLoop]
  | cons hd tl ih =>
    intro ml ts cur h
    cases hd with
    | none =>
      have h2 : (batchLoop r tl ml ts cur).panicked = false := by
        simpa [batchLoop] using h
      simpa [batchLoop, List.filterMap_cons] using ih ml ts cur h2
    | some m =>
      cases hbz : m.MsgBytes with
      | none => simp [batchLoop, hbz] at h
      | some bz =>
        by_cases hmax : r.IsMaxTx (ml + 1) (ts + bz.length) = true
        · have h2 : (batchLoop r tl 1 bz.length [m]).panicked = false := by
            simpa [batchLoop, hbz, hmax] using h
          have hjoin := ih 1 bz.length [m] h2
          simp only [batchLoop, hbz, hmax, if_true, List.filterMap_cons, id_eq,
            List.flatten_cons, List.append_assoc, hjoin]
          simp
        · rw [Bool.not_eq_true] at hmax
          have h2 : (batchLoop r tl (ml + 1) (ts + bz.length) (cur ++ [m])).panicked = false := by
            simpa [batchLoop, hbz, hmax] using h
          have := ih (ml + 1) (ts + bz.length) (cur ++ [m]) h2
          simp only [batchLoop, hbz, hmax, Bool.false_eq_true, if_false,
            List.filterMap_cons]
          rw [this]
          simp

/-- With a non-zero `MaxMsgLength`, every flushed batch and the pending
batch stay within the message-count limit, given the loop invariant that
`msgLen` equals the pending batch's length. -/
lemma batchLoop_count_le (r : RelayMsgs) (hL : r.MaxMsgLength ≠ 0) :
    ∀ (seq : List (Option RelayerMessage)) (txSize : Nat)
      (cur : List RelayerMessage),
      cur.length ≤ r.MaxMsgLength →
      (∀ b ∈ (batchLoop r seq cur.length txSize cur).flushed,
          b.length ≤ r.MaxMsgLength) ∧
        (batchLoop r seq cur.length txSize cur).pending.length ≤ r.MaxMsgLength := by
  intro seq
  induction seq with
  | nil => intro ts cur hcur; simpa [batchLoop] using hcur
  | cons hd tl ih =>
    intro ts cur hcur
    cases hd with
    | none => simpa [batchLoop] using ih ts cur hcur
    | some m =>
      cases hbz : m.MsgBytes with
      | none => simpa [batchLoop, hbz] using hcur
      | some bz =>
        by_cases hmax : r.IsMaxTx (cur.length + 1) (ts + bz.length) = true
        · have hone : (1 : Nat) ≤ r.MaxMsgLength := Nat.one_le_iff_ne_zero.mpr hL
          have hm : ([m] : List RelayerMessage).length ≤ r.MaxMsgLength := by
            simpa using hone
          have := ih bz.length [m] hm
          simp only [List.length_singleton] at this
          simp only [batchLoop, hbz, hmax, if_true]
          refine ⟨?_, this.2⟩
          intro b hb
          rcases List.mem_cons.mp hb with hb | hb
          · exact hb ▸ hcur
          · exact this.1 b hb
        · rw [Bool.not_eq_true] at hmax
          have hle : cur.length + 1 ≤ r.MaxMsgLength := not_isMaxTx_count r hL _ _ hmax
          have hlen : (cur ++ [m]).length = cur.length + 1 := by simp
          have := ih (ts + bz.length) (cur ++ [m]) (by simpa [hlen] using hle)
          simp only [hlen] at this
          simpa [batchLoop, hbz, hmax] using this

/-- Splitting the input sequence: the loop processes the first part, and if
it does not panic there, continues on the second part from the state the
first part left behind. -/
lemma batchLoop_append (r : RelayMsgs) :
    ∀ (xs ys : List (Option RelayerMessage)) (msgLen txSize : Nat)
      (cur : List RelayerMessage),
      batchLoop r (xs ++ ys) msgLen txSize cur =
        (if (batchLoop r xs msgLen txSize cur).panicked then
          batchLoop r xs msgLen txSize cur
        else
          ⟨(batchLoop r xs msgLen txSize cur).flushed ++
              (batchLoop r ys (batchLoop r xs msgLen txSize cur).msgLen
                (batchLoop r xs msgLen txSize cur).txSize
                (batchLoop r xs msgLen txSize cur).pending).flushed,
            (batchLoop r ys (batchLoop r xs msgLen txSize cur).msgLen
              (batchLoop r xs msgLen txSize cur).txSize
              (batchLoop r xs msgLen txSize cur).pending).msgLen,
            (batchLoop r ys (batchLoop r xs msgLen txSize cur).msgLen
              (batchLoop r xs msgLen txSize cur).txSize
              (batchLoop r xs msgLen txSize cur).pending).txSize,
            (batchLoop r ys (batchLoop r xs msgLen txSize cur).msgLen
              (batchLoop r xs msgLen txSize cur).txSize
              (batchLoop r xs msgLen txSize cur).pending).pending,
            (batchLoop r ys (batchLoop r xs msgLen txSize cur).msgLen
              (batchLoop r xs msgLen txSize cur).txSize
              (batchLoop r xs msgLen txSize cur).pending).panicked⟩) := by
  intro xs
  induction xs with
  | nil => intro ys ml ts cur; simp [batchLoop]
  | cons hd tl ih =>
    intro ys ml ts cur
    cases hd with
    | none => simpa [batchLoop] using ih ys ml ts cur
    | some m =>
      cases hbz : m.MsgBytes with
      | none => simp [batchLoop, hbz]
      | some bz =>
        by_cases hmax : r.IsMaxTx (ml + 1) (ts + bz.length) = true
        · simp only [List.cons_append, batchLoop, hbz, hmax, if_true,
            List.append_eq]
          rw [ih ys 1 bz.length [m]]
          cases hp : (batchLoop r tl 1 bz.length [m]).panicked with
          | true => simp [hp]
          | false => simp [hp]
        · rw [Bool.not_eq_true] at hmax
          simp only [List.cons_append, batchLoop, hbz, hmax, Bool.false_eq_true,
            if_false, List.append_eq]
          exact ih ys (ml + 1) (ts + bz.length) (cur ++ [m])

/-! ## Result-accumulator lemmas -/

lemma recordOutcome_src_fields (o : SenderOutcome) (res : SendMsgsResult) :
    (recordOutcome .src o res).SrcSendError = res.SrcSendError ++ o.error.toList ∧
    (recordOutcome .src o res).SuccessfulSrcBatches
      = res.SuccessfulSrcBatches + (if o.success then 1 else 0) ∧
    (recordOutcome .src o res).DstSendError = res.DstSendError ∧
    (recordOutcome .src o res).SuccessfulDstBatches = res.SuccessfulDstBatches := by
  cases herr : o.error <;> cases hsuc : o.success <;>
    simp [recordOutcome, herr, hsuc]

lemma recordOutcome_dst_fields (o : SenderOutcome) (res : SendMsgsResult) :
    (recordOutcome .dst o res).DstSendError = res.DstSendError ++ o.error.toList ∧
    (recordOutcome .dst o res).SuccessfulDstBatches
      = res.SuccessfulDstBatches + (if o.success then 1 else 0) ∧
    (recordOutcome .dst o res).SrcSendError = res.SrcSendError ∧
    (recordOutcome .dst o res).SuccessfulSrcBatches = res.SuccessfulSrcBatches := by
  cases herr : o.error <;> cases hsuc : o.success <;>
    simp [recordOutcome, herr, hsuc]

lemma recordAll_src_fields (sender : RelayMsgSender) :
    ∀ (bs : List (List RelayerMessage)) (idx : Nat) (res : SendMsgsResult),
      (recordAll .src sender idx bs res).SrcSendError
          = res.SrcSendError ++ (outcomes sender idx bs).filterMap SenderOutcome.error ∧
        (recordAll .src sender idx bs res).SuccessfulSrcBatches
          = res.SuccessfulSrcBatches
              + ((outcomes sender idx bs).filter SenderOutcome.success).length ∧
        (recordAll .src sender idx bs res).DstSendError = res.DstSendError ∧
        (recordAll .src sender idx bs res).SuccessfulDstBatches
          = res.SuccessfulDstBatches := by
  intro bs
  induction bs with
  | nil => intro idx res; simp [recordAll, outcomes]
  | cons b tl ih =>
    intro idx res
    have hrec := recordOutcome_src_fields (sender.SendMessages idx b) res
    have htl := ih (idx + 1) (recordOutcome .src (sender.SendMessages idx b) res)
    simp only [recordAll, outcomes, List.filterMap_cons, List.filter_cons]
    refine ⟨?_, ?_, ?_, ?_⟩
    · rw [htl.1, hrec.1]
      cases herr : (sender.SendMessages idx b).error <;> simp [herr]
    · rw [htl.2.1, hrec.2.1]
      cases hsuc : (sender.SendMessages idx b).success <;> simp [hsuc] <;> omega
    · rw [htl.2.2.1, hrec.2.2.1]
    · rw [htl.2.2.2, hrec.2.2.2]

lemma recordAll_dst_fields (sender : RelayMsgSender) :
    ∀ (bs : List (List RelayerMessage)) (idx : Nat) (res : SendMsgsResult),
      (recordAll .dst sender idx bs res).DstSendError
          = res.DstSendError ++ (outcomes sender idx bs).filterMap SenderOutcome.error ∧
        (recordAll .dst sender idx bs res).SuccessfulDstBatches
          = res.SuccessfulDstBatches
              + ((outcomes sender idx bs).filter SenderOutcome.success).length ∧
        (recordAll .dst sender idx bs res).SrcSendError = res.SrcSendError ∧
        (recordAll .dst sender idx bs res).SuccessfulSrcBatches
          = res.SuccessfulSrcBatches := by
  intro bs
  induction bs with
  | nil => intro idx res; simp [recordAll, outcomes]
  | cons b tl ih =>
    intro idx res
    have hrec := recordOutcome_dst_fields (sender.SendMessages idx b) res
    have htl := ih (idx + 1) (recordOutcome .dst (sender.SendMessages idx b) res)
    simp only [recordAll, outcomes, List.filterMap_cons, List.filter_cons]
    refine ⟨?_, ?_, ?_, ?_⟩
    · rw [htl.1, hrec.1]
      cases herr : (sender.SendMessages idx b).error <;> simp [herr]
    · rw [htl.2.1, hrec.2.1]
      cases hsuc : (sender.SendMessages idx b).success <;> simp [hsuc] <;> omega
    · rw [htl.2.2.1, hrec.2.2.1]
    · rw [htl.2.2.2, hrec.2.2.2]

/-! ## Trace-filtering lemmas -/

lemma filterMap_tagged_same (s : Side) (bs : List (List RelayerMessage)) :
    (tagged s bs).filterMap (fun c => if c.1 = s then some c.2 else none) = bs := by
  induction bs with
  | nil => rfl
  | cons b tl ih => simpa [tagged, List.filterMap_cons] using ih

lemma filterMap_tagged_ne (s t : Side) (h : t ≠ s) (bs : List (List RelayerMessage)) :
    (tagged t bs).filterMap (fun c => if c.1 = s then some c.2 else none) = [] := by
  induction bs with
  | nil => rfl
  | cons b tl ih => simpa [tagged, List.filterMap_cons, h] using ih

lemma sideBatches_send (r : RelayMsgs) (src dst : RelayMsgSender) :
    sideBatches (r.Send src dst) Side.src = sideBatchesPure r r.Src ∧
      sideBatches (r.Send src dst) Side.dst
        = (if sidePanics r r.Src then [] else sideBatchesPure r r.Dst) := by
  rw [sideBatches, sideBatches, Send_eq]
  cases hs : sidePanics r r.Src with
  | true =>
    simp only [if_true]
    constructor
    · exact filterMap_tagged_same _ _
    · exact filterMap_tagged_ne _ _ (by simp) _
  | false =>
    cases hd : sidePanics r r.Dst with
    | true =>
      simp only [Bool.false_eq_true, if_false, if_true, List.filterMap_append]
      rw [filterMap_tagged_same, filterMap_tagged_same,
        filterMap_tagged_ne Side.src Side.dst (by simp),
        filterMap_tagged_ne Side.dst Side.src (by simp)]
      simp
    | false =>
      simp only [Bool.false_eq_true, if_false, List.filterMap_append]
      rw [filterMap_tagged_same, filterMap_tagged_same,
        filterMap_tagged_ne Side.src Side.dst (by simp),
        filterMap_tagged_ne Side.dst Side.src (by simp)]
      simp

/-! ## Concrete runs used as witnesses -/

/-- A sender whose every call succeeds with no error. -/
def okSender : RelayMsgSender := ⟨"chain-ok", fun _ _ => ⟨some 0, true, none⟩⟩

/-- A sender whose every call fails with a cancellation-shaped error, as a
cancelled context makes `SendMessages` do. -/
def cancelSender : RelayMsgSender :=
  ⟨"chain-cancel", fun _ _ => ⟨none, false, some "context canceled"⟩⟩

/-- Messages of serialized size 10 used in the example containers. -/
def msgA : RelayerMessage := ⟨1, some (List.replicate 10 0)⟩

def msgB : RelayerMessage := ⟨2, some (List.replicate 10 0)⟩

def msgC : RelayerMessage := ⟨3, some (List.replicate 10 0)⟩

def msgD : RelayerMessage := ⟨4, some (List.replicate 10 0)⟩

def msgE : RelayerMessage := ⟨5, some (List.replicate 10 0)⟩

/-- A message whose `MsgBytes()` fails. -/
def msgFail : RelayerMessage := ⟨9, none⟩

/-- A single message of serialized size 30, above the 25-byte limit below. -/
def msgOversized : RelayerMessage := ⟨7, some (List.replicate 30 0)⟩

/-- Container with one oversized source message and `MaxTxSize = 25`. -/
def rOversized : RelayMsgs := ⟨[some msgOversized], [], 25, 0⟩

/-- Scenario A of the spec: three 10-byte source messages, `MaxTxSize = 25`. -/
def rScenario : RelayMsgs := ⟨[some msgA, some msgB, some msgC], [], 25, 0⟩

/-- Two 10-byte source messages under `MaxTxSize = 15` (two batches) plus one
destination message. -/
def rCancel : RelayMsgs := ⟨[some msgA, some msgB], [some msgC], 15, 0⟩

/-- Five source messages under `MaxMsgLength = 2`. -/
def rCount : RelayMsgs :=
  ⟨[some msgA, some msgB, some msgC, some msgD, some msgE], [], 0, 2⟩

/-- A source sequence whose second message fails to serialize. -/
def rPanic : RelayMsgs := ⟨[some msgA, some msgFail, some msgB], [some msgC], 25, 0⟩

/-- Decoder used as the concrete Amino codec in the decode witness. -/
def decExample : String → Option RelayerMessage :=
  fun s => if s = "bad" then none else some ⟨s.length, some []⟩

/-! ## Claims -/

/-- C10: `Ready` is total over an absent (nil) container: invoked on a nil
`RelayMsgs` reference it returns `false` rather than faulting, and on a
present container it is exactly the both-sequences-empty check, so callers
may use it as the emptiness check without first testing for nil. -/
theorem ready_nil_returns_false :
    Ready none = false ∧
      ∀ r : RelayMsgs, (Ready (some r) = false ↔ (r.Src = [] ∧ r.Dst = [])) := by
  refine ⟨rfl, ?_⟩
  intro r
  obtain ⟨src, dst, mts, mml⟩ := r
  cases src <;> cases dst <;> simp [Ready]

/-- Witness for C10: `Ready` of a nil reference and of an empty container. -/
theorem ready_nil_returns_false_witness :
    Ready none = false ∧ Ready (some ⟨[], [], 3, 4⟩) = false :=
  ⟨ready_nil_returns_false.1,
    (ready_nil_returns_false.2 ⟨[], [], 3, 4⟩).mpr ⟨rfl, rfl⟩⟩

/-- C4: `PartiallySent` returns true iff at least one successful-batch count
is positive and at least one accumulated error is non-nil; in particular it
is false whenever both errors are nil (regardless of counts) and false
whenever both counts are zero (regardless of errors). -/
theorem partiallySent_iff :
    ∀ res : SendMsgsResult,
      (res.PartiallySent = true ↔
          ((0 < res.SuccessfulSrcBatches ∨ 0 < res.SuccessfulDstBatches) ∧
            (res.SrcSendError ≠ [] ∨ res.DstSendError ≠ []))) ∧
        (res.SrcSendError = [] → res.DstSendError = [] →
          res.PartiallySent = false) ∧
        (res.SuccessfulSrcBatches = 0 → res.SuccessfulDstBatches = 0 →
          res.PartiallySent = false) := by
  intro res
  obtain ⟨s, d, se, de⟩ := res
  refine ⟨?_, ?_, ?_⟩
  · cases se <;> cases de <;> simp [SendMsgsResult.PartiallySent]
  · intro h1 h2
    subst h1; subst h2
    simp [SendMsgsResult.PartiallySent]
  · intro h1 h2
    subst h1; subst h2
    simp [SendMsgsResult.PartiallySent]

/-- Witness for C4: one successful source batch plus a destination error is
reported as partially sent. -/
theorem partiallySent_iff_witness :
    SendMsgsResult.PartiallySent ⟨1, 0, [], ["boom"]⟩ = true :=
  ((partiallySent_iff ⟨1, 0, [], ["boom"]⟩).1).mpr
    ⟨Or.inl (by decide), Or.inr (by decide)⟩

lemma decodeLoop_eq (dec : String → Option RelayerMessage) :
    ∀ (msgs : List String) (out : List RelayerMessage),
      DecodeMsgs.decodeLoop dec msgs out = out ++ msgs.filterMap dec := by
  intro msgs
  induction msgs with
  | nil => intro out; simp [DecodeMsgs.decodeLoop]
  | cons b tl ih =>
    intro out
    cases hb : dec b with
    | none => simp [DecodeMsgs.decodeLoop, hb, ih, List.filterMap_cons]
    | some sm => simp [DecodeMsgs.decodeLoop, hb, ih, List.filterMap_cons]

/-- C9: `DecodeMsgs` maps a sequence of text blobs to the sequence of
messages in which every blob that fails to parse is omitted (never aborting
the whole batch) and the successfully parsed messages keep their original
relative order; in particular decoding 3 blobs whose second is malformed
yields exactly the decodings of the first and third, in that order. -/
theorem decodeMsgs_omits_failures_preserves_order :
    (∀ (dec : String → Option RelayerMessage) (msgs : List String),
        DecodeMsgs dec msgs = msgs.filterMap dec) ∧
      (∀ (dec : String → Option RelayerMessage) (b1 b2 b3 : String)
          (m1 m3 : RelayerMessage),
        dec b1 = some m1 → dec b2 = none → dec b3 = some m3 →
        DecodeMsgs dec [b1, b2, b3] = [m1, m3]) := by
  have hall : ∀ (dec : String → Option RelayerMessage) (msgs : List String),
      DecodeMsgs dec msgs = msgs.filterMap dec := by
    intro dec msgs
    rw [DecodeMsgs, decodeLoop_eq]
    simp
  refine ⟨hall, ?_⟩
  intro dec b1 b2 b3 m1 m3 h1 h2 h3
  rw [hall]
  simp [List.filterMap_cons, h1, h2, h3]

/-- Witness for C9: a concrete decoder on three blobs with a malformed
middle blob. -/
theorem decodeMsgs_omits_failures_preserves_order_witness :
    DecodeMsgs decExample ["aa", "bad", "cccc"]
      = [⟨2, some []⟩, ⟨4, some []⟩] :=
  decodeMsgs_omits_failures_preserves_order.2 decExample "aa" "bad" "cccc"
    ⟨2, some []⟩ ⟨4, some []⟩ (by decide) (by decide) (by decide)

/-- C1 (code bug witness): on a container whose first source message alone
exceeds a positive `MaxTxSize`, `Send` invokes the source sender's
`SendMessages` with the empty pending batch before flushing the oversized
message — the sender contract's non-empty requirement is violated. Only the
leftover submission is guarded by `len(msgs) > 0`; the in-loop flush is not. -/
theorem send_submits_empty_batch_for_oversized_first_message :
    (rOversized.Send okSender okSender).calls
      = [(Side.src, []), (Side.src, [msgOversized])] := by
  decide

lemma send_panicked (r : RelayMsgs) (src dst : RelayMsgSender) :
    (r.Send src dst).panicked = (sidePanics r r.Src || sidePanics r r.Dst) := by
  rw [Send_eq]
  cases hs : sidePanics r r.Src with
  | true => simp
  | false => cases hd : sidePanics r r.Dst <;> simp [hd]

lemma sideBatchesPure_flatten (r : RelayMsgs) (seq : List (Option RelayerMessage))
    (h : sidePanics r seq = false) :
    (sideBatchesPure r seq).flatten = seq.filterMap id := by
  have hjoin := batchLoop_join r seq 0 0 [] h
  rw [sideBatchesPure]
  rw [sidePanics] at h
  simp only [h, Bool.false_eq_true, if_false]
  by_cases hlen : (batchLoop r seq 0 0 []).pending.length > 0
  · simp only [hlen, if_true, List.flatten_append, List.flatten_cons,
      List.flatten_nil, List.append_nil]
    simpa using hjoin
  · have hpend : (batchLoop r seq 0 0 []).pending = [] :=
      List.length_eq_zero.mp (by omega)
    simp only [hlen, if_false]
    simpa [hpend] using hjoin

/-- C2: when `Send` completes without a serialization panic, concatenating,
in submission order, the batches it passed to each destination's sender
yields exactly the subsequence of non-nil messages of that destination's
input sequence — no message lost, duplicated, or reordered. -/
theorem send_batches_flatten_eq_nonnil_subsequence :
    ∀ (r : RelayMsgs) (src dst : RelayMsgSender),
      (r.Send src dst).panicked = false →
      (sideBatches (r.Send src dst) Side.src).flatten = r.Src.filterMap id ∧
        (sideBatches (r.Send src dst) Side.dst).flatten = r.Dst.filterMap id := by
  intro r src dst hp
  rw [send_panicked] at hp
  have hs : sidePanics r r.Src = false := by
    cases h : sidePanics r r.Src <;> simp [h] at hp ⊢
  have hd : sidePanics r r.Dst = false := by
    cases h : sidePanics r r.Dst <;> simp [h] at hp ⊢
  have hsb := sideBatches_send r src dst
  constructor
  · rw [hsb.1, sideBatchesPure_flatten r r.Src hs]
  · rw [hsb.2]
    simp only [hs, Bool.false_eq_true, if_false]
    exact sideBatchesPure_flatten r r.Dst hd

/-- Witness for C2: Scenario A (three 10-byte messages, 25-byte limit) is
split into batches `[msgA, msgB]` and `[msgC]` whose concatenation is the
input. -/
theorem send_batches_flatten_eq_nonnil_subsequence_witness :
    (rScenario.Send okSender okSender).panicked = false ∧
      ((sideBatches (rScenario.Send okSender okSender) Side.src).flatten
          = rScenario.Src.filterMap id ∧
        (sideBatches (rScenario.Send okSender okSender) Side.dst).flatten
          = rScenario.Dst.filterMap id) :=
  ⟨by decide,
    send_batches_flatten_eq_nonnil_subsequence rScenario okSender okSender
      (by decide)⟩

lemma sideBatchesPure_count_le (r : RelayMsgs) (seq : List (Option RelayerMessage))
    (hL : r.MaxMsgLength ≠ 0) :
    ∀ b ∈ sideBatchesPure r seq, b.length ≤ r.MaxMsgLength := by
  have h := batchLoop_count_le r hL seq 0 [] (by simp)
  simp only [List.length_nil] at h
  intro b hb
  rw [sideBatchesPure] at hb
  by_cases hp : (batchLoop r seq 0 0 []).panicked = true
  · simp only [hp, if_true] at hb
    exact h.1 b hb
  · rw [Bool.not_eq_true] at hp
    simp only [hp, Bool.false_eq_true, if_false] at hb
    by_cases hlen : (batchLoop r seq 0 0 []).pending.length > 0
    · simp only [hlen, if_true] at hb
      rcases List.mem_append.mp hb with hb | hb
      · exact h.1 b hb
      · rw [List.mem_singleton.mp hb]
        exact h.2
    · simp only [hlen, if_false] at hb
      exact h.1 b hb

/-- C6: with a positive `MaxMsgLength`, every batch `Send` submits (on
either destination, including batches flushed before a panic) contains at
most `MaxMsgLength` messages. The spec's allowance for a byte-oversized
singleton batch is subsumed: such a batch has one message, and
`1 ≤ MaxMsgLength`; non-emptiness of the input is not needed. -/
theorem send_batches_respect_max_msg_length :
    ∀ (r : RelayMsgs) (src dst : RelayMsgSender), 0 < r.MaxMsgLength →
      ∀ c ∈ (r.Send src dst).calls, c.2.length ≤ r.MaxMsgLength := by
  intro r src dst hL c hc
  have hLne : r.MaxMsgLength ≠ 0 := Nat.pos_iff_ne_zero.mp hL
  have hbound : ∀ (s : Side) (bs : List (List RelayerMessage)),
      (∀ b ∈ bs, b.length ≤ r.MaxMsgLength) → c ∈ tagged s bs →
      c.2.length ≤ r.MaxMsgLength := by
    intro s bs hbs hmem
    rcases List.mem_map.mp hmem with ⟨b, hb, hcb⟩
    rw [← hcb]
    exact hbs b hb
  rw [Send_eq] at hc
  by_cases hs : sidePanics r r.Src = true
  · simp only [hs, if_true] at hc
    exact hbound Side.src _ (sideBatchesPure_count_le r r.Src hLne) hc
  · rw [Bool.not_eq_true] at hs
    have step : ∀ hc2 : c ∈ tagged Side.src (sideBatchesPure r r.Src)
        ++ tagged Side.dst (sideBatchesPure r r.Dst),
        c.2.length ≤ r.MaxMsgLength := by
      intro hc2
      rcases List.mem_append.mp hc2 with hmem | hmem
      · exact hbound Side.src _ (sideBatchesPure_count_le r r.Src hLne) hmem
      · exact hbound Side.dst _ (sideBatchesPure_count_le r r.Dst hLne) hmem
    by_cases hd : sidePanics r r.Dst = true
    · simp only [hs, hd, Bool.false_eq_true, if_false, if_true] at hc
      exact step hc
    · rw [Bool.not_eq_true] at hd
      simp only [hs, hd, Bool.false_eq_true, if_false] at hc
      exact step hc

/-- Witness for C6: with `MaxMsgLength = 2` and five messages, the batch
`[msgA, msgB]` is submitted and respects the bound. -/
theorem send_batches_respect_max_msg_length_witness :
    0 < rCount.MaxMsgLength ∧
      (Side.src, [msgA, msgB]) ∈ (rCount.Send okSender okSender).calls ∧
      (Side.src, [msgA, msgB]).2.length ≤ rCount.MaxMsgLength :=
  ⟨by decide, by decide,
    send_batches_respect_max_msg_length rCount okSender okSender (by decide)
      (Side.src, [msgA, msgB]) (by decide)⟩

/-- C5: for every completed `Send`, each destination's accumulated error is
exactly the in-order list of the non-nil errors returned by that
destination's submissions (earlier errors preserved, composed, never
overwritten), and each destination's successful-batch counter is exactly the
number of submissions whose outcome had `success = true`; an outcome with
`success = false` and nil error contributes to neither. -/
theorem send_accumulates_errors_and_counts :
    ∀ (r : RelayMsgs) (src dst : RelayMsgSender) (res : SendMsgsResult),
      (r.Send src dst).result = some res →
      res.SrcSendError
          = (outcomes src 0 (sideBatches (r.Send src dst) Side.src)).filterMap
              SenderOutcome.error ∧
        res.SuccessfulSrcBatches
          = ((outcomes src 0 (sideBatches (r.Send src dst) Side.src)).filter
              SenderOutcome.success).length ∧
        res.DstSendError
          = (outcomes dst 0 (sideBatches (r.Send src dst) Side.dst)).filterMap
              SenderOutcome.error ∧
        res.SuccessfulDstBatches
          = ((outcomes dst 0 (sideBatches (r.Send src dst) Side.dst)).filter
              SenderOutcome.success).length := by
  intro r src dst res hres
  have hsb := sideBatches_send r src dst
  rw [Send_eq] at hres
  by_cases hs : sidePanics r r.Src = true
  · simp [hs] at hres
  · rw [Bool.not_eq_true] at hs
    by_cases hd : sidePanics r r.Dst = true
    · simp [hs, hd] at hres
    · rw [Bool.not_eq_true] at hd
      simp only [hs, hd, Bool.false_eq_true, if_false, Option.some.injEq] at hres
      have hsrcfields := recordAll_src_fields src (sideBatchesPure r r.Src) 0
        (⟨0, 0, [], []⟩ : SendMsgsResult)
      have hdstfields := recordAll_dst_fields dst (sideBatchesPure r r.Dst) 0
        (recordAll .src src 0 (sideBatchesPure r r.Src) ⟨0, 0, [], []⟩)
      rw [hsb.1]
      rw [hsb.2]
      simp only [hs, Bool.false_eq_true, if_false]
      refine ⟨?_, ?_, ?_, ?_⟩
      · rw [← hres, hdstfields.2.2.1, hsrcfields.1]
        simp
      · rw [← hres, hdstfields.2.2.2, hsrcfields.2.1]
        simp
      · rw [← hres, hdstfields.1, hsrcfields.2.2.1]
        simp
      · rw [← hres, hdstfields.2.1, hsrcfields.2.2.2]
        simp

/-- Witness for C5: a run in which the source sender fails the first batch
with error `e0` and succeeds the second, while the destination sender
succeeds its single batch. -/
theorem send_accumulates_errors_and_counts_witness :
    (rCancel.Send cancelSender okSender).result
        = some ⟨0, 1, ["context canceled", "context canceled"], []⟩ ∧
      ((⟨0, 1, ["context canceled", "context canceled"], []⟩ :
            SendMsgsResult).SrcSendError
          = (outcomes cancelSender 0
              (sideBatches (rCancel.Send cancelSender okSender) Side.src)).filterMap
              SenderOutcome.error ∧
        (⟨0, 1, ["context canceled", "context canceled"], []⟩ :
            SendMsgsResult).SuccessfulSrcBatches
          = ((outcomes cancelSender 0
              (sideBatches (rCancel.Send cancelSender okSender) Side.src)).filter
              SenderOutcome.success).length ∧
        (⟨0, 1, ["context canceled", "context canceled"], []⟩ :
            SendMsgsResult).DstSendError
          = (outcomes okSender 0
              (sideBatches (rCancel.Send cancelSender okSender) Side.dst)).filterMap
              SenderOutcome.error ∧
        (⟨0, 1, ["context canceled", "context canceled"], []⟩ :
            SendMsgsResult).SuccessfulDstBatches
          = ((outcomes okSender 0
              (sideBatches (rCancel.Send cancelSender okSender) Side.dst)).filter
              SenderOutcome.success).length) :=
  ⟨by decide,
    send_accumulates_errors_and_counts rCancel cancelSender okSender
      ⟨0, 1, ["context canceled", "context canceled"], []⟩ (by decide)⟩

/-- C7: when every source message serializes, `Send` runs the whole source
phase before any destination submission (the trace is all source-tagged
calls followed by all destination-tagged calls), and the destination run is
independent of the source sender: the destination batches and the
destination components of the result are identical across runs that differ
only in the source sender's outcomes. -/
theorem send_src_phase_first_and_dst_independent :
    ∀ (r : RelayMsgs) (s1 s2 d : RelayMsgSender),
      sidePanics r r.Src = false →
      (r.Send s1 d).calls
          = tagged Side.src (sideBatchesPure r r.Src)
              ++ tagged Side.dst (sideBatchesPure r r.Dst) ∧
        sideBatches (r.Send s1 d) Side.dst = sideBatches (r.Send s2 d) Side.dst ∧
        ((r.Send s1 d).result.map fun x => (x.SuccessfulDstBatches, x.DstSendError))
          = ((r.Send s2 d).result.map fun x =>
              (x.SuccessfulDstBatches, x.DstSendError)) := by
  intro r s1 s2 d hs
  refine ⟨?_, ?_, ?_⟩
  · rw [Send_eq]
    simp only [hs, Bool.false_eq_true, if_false]
    cases hd : sidePanics r r.Dst <;> simp [hd]
  · rw [(sideBatches_send r s1 d).2, (sideBatches_send r s2 d).2]
  · rw [Send_eq, Send_eq]
    simp only [hs, Bool.false_eq_true, if_false]
    cases hd : sidePanics r r.Dst with
    | true => simp
    | false =>
      simp only [Bool.false_eq_true, if_false, Option.map_some']
      have h1 := recordAll_dst_fields d (sideBatchesPure r r.Dst) 0
        (recordAll .src s1 0 (sideBatchesPure r r.Src) ⟨0, 0, [], []⟩)
      have h2 := recordAll_dst_fields d (sideBatchesPure r r.Dst) 0
        (recordAll .src s2 0 (sideBatchesPure r r.Src) ⟨0, 0, [], []⟩)
      have hin1 := recordAll_src_fields s1 (sideBatchesPure r r.Src) 0
        (⟨0, 0, [], []⟩ : SendMsgsResult)
      have hin2 := recordAll_src_fields s2 (sideBatchesPure r r.Src) 0
        (⟨0, 0, [], []⟩ : SendMsgsResult)
      rw [Option.some_inj, Prod.mk.injEq]
      constructor
      · rw [h1.2.1, h2.2.1, hin1.2.2.2, hin2.2.2.2]
      · rw [h1.1, h2.1, hin1.2.2.1, hin2.2.2.1]

/-- Witness for C7: the destination run of `rCancel` is the same whether the
source sender cancels every call or succeeds every call. -/
theorem send_src_phase_first_and_dst_independent_witness :
    sidePanics rCancel rCancel.Src = false ∧
      ((rCancel.Send cancelSender okSender).calls
          = tagged Side.src (sideBatchesPure rCancel rCancel.Src)
              ++ tagged Side.dst (sideBatchesPure rCancel rCancel.Dst) ∧
        sideBatches (rCancel.Send cancelSender okSender) Side.dst
          = sideBatches (rCancel.Send okSender okSender) Side.dst ∧
        ((rCancel.Send cancelSender okSender).result.map fun x =>
            (x.SuccessfulDstBatches, x.DstSendError))
          = ((rCancel.Send okSender okSender).result.map fun x =>
              (x.SuccessfulDstBatches, x.DstSendError))) :=
  ⟨by decide,
    send_src_phase_first_and_dst_independent rCancel cancelSender okSender
      okSender (by decide)⟩

lemma batchLoop_panic_at (r : RelayMsgs) (pre post : List (Option RelayerMessage))
    (m : RelayerMessage) (hm : m.MsgBytes = none)
    (hpre : (batchLoop r pre 0 0 []).panicked = false) :
    batchLoop r (pre ++ some m :: post) 0 0 []
      = ⟨(batchLoop r pre 0 0 []).flushed, (batchLoop r pre 0 0 []).msgLen,
          (batchLoop r pre 0 0 []).txSize, (batchLoop r pre 0 0 []).pending,
          true⟩ := by
  rw [batchLoop_append]
  simp only [hpre, Bool.false_eq_true, if_false]
  simp [batchLoop, hm]

/-- C8: if some message's `MsgBytes` serialization fails during `Send`, the
call aborts with a panic: no ordinary result is returned, and the submission
trace consists only of the batches flushed strictly before the failing
message (no leftover submission, nothing after the failure; for a source
failure the destination is never reached). Both the source-failure and the
destination-failure cases are stated. -/
theorem serialization_failure_aborts_send :
    ∀ (r : RelayMsgs) (src dst : RelayMsgSender),
      (∀ (pre post : List (Option RelayerMessage)) (m : RelayerMessage),
        r.Src = pre ++ some m :: post → m.MsgBytes = none →
        (batchLoop r pre 0 0 []).panicked = false →
        (r.Send src dst).panicked = true ∧ (r.Send src dst).result = none ∧
          (r.Send src dst).calls
            = tagged Side.src (batchLoop r pre 0 0 []).flushed) ∧
      (∀ (pre post : List (Option RelayerMessage)) (m : RelayerMessage),
        r.Dst = pre ++ some m :: post → m.MsgBytes = none →
        sidePanics r r.Src = false →
        (batchLoop r pre 0 0 []).panicked = false →
        (r.Send src dst).panicked = true ∧ (r.Send src dst).result = none ∧
          (r.Send src dst).calls
            = tagged Side.src (sideBatchesPure r r.Src)
                ++ tagged Side.dst (batchLoop r pre 0 0 []).flushed) := by
  intro r src dst
  constructor
  · intro pre post m hsrc hm hpre
    have hb := batchLoop_panic_at r pre post m hm hpre
    have hsp : sidePanics r r.Src = true := by
      rw [sidePanics, hsrc, hb]
    have hflush : sideBatchesPure r r.Src = (batchLoop r pre 0 0 []).flushed := by
      rw [sideBatchesPure, hsrc, hb]
      simp
    rw [Send_eq]
    simp [hsp, hflush]
  · intro pre post m hdst hm hsp hpre
    have hb := batchLoop_panic_at r pre post m hm hpre
    have hdp : sidePanics r r.Dst = true := by
      rw [sidePanics, hdst, hb]
    have hflush : sideBatchesPure r r.Dst = (batchLoop r pre 0 0 []).flushed := by
      rw [sideBatchesPure, hdst, hb]
      simp
    rw [Send_eq]
    simp [hsp, hdp, hflush]

/-- Witness for C8: a source sequence whose second message fails to
serialize; the first message had not been flushed yet, so no submission at
all takes place, no result is returned, and the destination is not reached. -/
theorem serialization_failure_aborts_send_witness :
    (rPanic.Send okSender okSender).panicked = true ∧
      (rPanic.Send okSender okSender).result = none ∧
      (rPanic.Send okSender okSender).calls
        = tagged Side.src (batchLoop rPanic [some msgA] 0 0 []).flushed :=
  (serialization_failure_aborts_send rPanic okSender okSender).1
    [some msgA] [some msgB] msgFail rfl rfl (by decide)

/-- Counterexample for C3: with two source batches and one destination
batch, a sender whose first call already returns the cancellation-shaped
error "context canceled" does not stop `Send`: the trace contains two more
`SendMessages` calls after the first one (one more source batch, then the
destination batch), refuting the claim that no subsequent call occurs after
a cancellation-shaped error is returned. -/
theorem cancellation_does_not_stop_send_counterexample :
    (cancelSender.SendMessages 0 [msgA]).error = some "context canceled" ∧
      (rCancel.Send cancelSender cancelSender).calls
        = [(Side.src, [msgA]), (Side.src, [msgB]), (Side.dst, [msgC])] ∧
      (rCancel.Send cancelSender cancelSender).result
        = some ⟨0, 0, ["context canceled", "context canceled"],
            ["context canceled"]⟩ := by
  refine ⟨rfl, ?_, ?_⟩ <;> decide

/-- C3 (amended): a cancellation-shaped sender error is handled exactly like
any other sender outcome — `Send` never inspects outcomes to decide what to
submit, so the submission trace and the panic status are identical for any
two pairs of senders, and whenever no serialization panic occurs the
accumulated (partial) results are still returned. -/
theorem send_trace_independent_of_sender_outcomes :
    ∀ (r : RelayMsgs) (s1 d1 s2 d2 : RelayMsgSender),
      (r.Send s1 d1).calls = (r.Send s2 d2).calls ∧
        (r.Send s1 d1).panicked = (r.Send s2 d2).panicked ∧
        ((r.Send s1 d1).panicked = false →
          (r.Send s1 d1).result
            = some (recordAll .dst d1 0 (sideBatchesPure r r.Dst)
                (recordAll .src s1 0 (sideBatchesPure r r.Src) ⟨0, 0, [], []⟩))) := by
  intro r s1 d1 s2 d2
  refine ⟨?_, ?_, ?_⟩
  · rw [Send_eq, Send_eq]
    cases hs : sidePanics r r.Src with
    | true => simp
    | false => cases hd : sidePanics r r.Dst <;> simp [hd]
  · rw [send_panicked, send_panicked]
  · intro hp
    rw [send_panicked] at hp
    have hs : sidePanics r r.Src = false := by
      cases h : sidePanics r r.Src <;> simp [h] at hp ⊢
    have hd : sidePanics r r.Dst = false := by
      cases h : sidePanics r r.Dst <;> simp [h] at hp ⊢
    rw [Send_eq]
    simp [hs, hd]

/-- Witness for C3 (amended): the run whose every sender call reports
cancellation submits the same batches as the run whose every call succeeds,
and still returns its accumulated result. -/
theorem send_trace_independent_of_sender_outcomes_witness :
    (rCancel.Send cancelSender cancelSender).calls
        = (rCancel.Send okSender okSender).calls ∧
      (rCancel.Send cancelSender cancelSender).panicked = false ∧
      (rCancel.Send cancelSender cancelSender).result
        = some (recordAll .dst cancelSender 0 (sideBatchesPure rCancel rCancel.Dst)
            (recordAll .src cancelSender 0 (sideBatchesPure rCancel rCancel.Src)
              ⟨0, 0, [], []⟩)) :=
  ⟨(send_trace_independent_of_sender_outcomes rCancel cancelSender cancelSender
      okSender okSender).1,
    by decide,
    (send_trace_independent_of_sender_outcomes rCancel cancelSender cancelSender
      okSender okSender).2.2 (by decide)⟩
